import Mathlib

/-!
# ClockInBot attendance core — shallow embedding

A shallow embedding of the attendance-confirmation core of the ClockInBot
repository: the session/confirmation data model (`src/database/models.py`),
the repository operations (`src/database/repository.py`), and the
scheduler's per-session decision logic (`src/tasks/scheduler.py`,
`src/views/confirm_view.py`).

Timestamps are modelled as `Int` seconds: the Python code compares
`datetime` values of a single clock origin (and normalizes naive values to
UTC before comparing), so only the ordered additive structure matters.
Database tables are lists of rows; SQL `UPDATE ... WHERE cond` is a
conditional map over the list, `fetchrow` is `head?` of the matching rows,
and `RETURNING *` after an update yields the first updated row.  The
scheduler's `async` store reads are modelled against a single store
snapshot: within one `_process_session` call the model's repeated re-reads
all see the same state, which is the sequential (no interleaving) execution
of the code.
-/

namespace ClockInBot

/-- A row of `attendance_sessions` (`models.py`): `end_time IS NULL` means
the session is active. -/
structure Session where
  id : Nat
  guildUserId : Nat
  projectId : Nat
  startTime : Int
  endTime : Option Int
  endSummary : Option String
  status : String
  startMessageId : Option Nat
  deriving Repr, DecidableEq

/-- A row of `confirmations` (`models.py`): one liveness prompt and its
eventual response.  `messageId` is the `message_id` column added by the
migration in `Database._init_tables`. -/
structure Confirmation where
  id : Nat
  sessionId : Nat
  promptTime : Int
  responded : Bool
  responseTime : Option Int
  summary : Option String
  messageId : Option Nat
  deriving Repr, DecidableEq

/-- The persistent store restricted to the two tables the attendance core
mutates, with the serial counters that mint fresh row ids. -/
structure Store where
  sessions : List Session
  confirmations : List Confirmation
  nextSessionId : Nat
  nextConfirmationId : Nat
  deriving Repr, DecidableEq

/-! ## Repository operations (`src/database/repository.py`) -/

/-- Row match for `WHERE id = $sid AND end_time IS NULL`. -/
def sessionEndCond (sid : Nat) (s : Session) : Bool :=
  s.id == sid && s.endTime.isNone

/-- The `SET end_time = $1, end_summary = $2, status = $3` part of
`AttendanceRepository.end_session`. -/
def endSessionRow (now : Int) (summary : Option String) (status : String)
    (s : Session) : Session :=
  { s with endTime := some now, endSummary := summary, status := status }

/-- `AttendanceRepository.end_session`: conditional update guarded by
`end_time IS NULL`, returning the updated row (`RETURNING *` through
`fetchrow`) or `none` when zero rows were affected. -/
def end_session (st : Store) (sid : Nat) (now : Int) (summary : Option String)
    (status : String) : Store × Option Session :=
  ({ st with
      sessions := st.sessions.map fun s =>
        if sessionEndCond sid s then endSessionRow now summary status s else s },
   ((st.sessions.filter (sessionEndCond sid)).head?).map
      (endSessionRow now summary status))

/-- `AttendanceRepository.get_active_session`: the user's session with
`end_time IS NULL`, via `fetchrow`. -/
def get_active_session (st : Store) (guildUserId : Nat) : Option Session :=
  (st.sessions.filter fun s => s.guildUserId == guildUserId && s.endTime.isNone).head?

/-- `AttendanceRepository.get_session`: `SELECT * WHERE id = $1` via
`fetchrow`. -/
def get_session (st : Store) (sid : Nat) : Option Session :=
  (st.sessions.filter fun s => s.id == sid).head?

/-- `AttendanceRepository.start_session`: if the user has an active session
it is first ended through `end_session` (summary "自動終了: 新しいセッション
開始のため", default status `manual`), then a fresh active row is inserted. -/
def start_session (st : Store) (guildUserId projectId : Nat) (now : Int) :
    Store × Session :=
  let st₁ :=
    match get_active_session st guildUserId with
    | some active =>
        (end_session st active.id now (some "自動終了: 新しいセッション開始のため")
          "manual").1
    | none => st
  let s : Session :=
    { id := st₁.nextSessionId, guildUserId := guildUserId, projectId := projectId
      startTime := now, endTime := none, endSummary := none
      status := "manual", startMessageId := none }
  ({ st₁ with sessions := st₁.sessions ++ [s], nextSessionId := st₁.nextSessionId + 1 }, s)

/-- `ConfirmationRepository.create_confirmation`: insert a confirmation
with `prompt_time = now` and the defaults `responded = false`,
`response_time/summary/message_id NULL`. -/
def create_confirmation (st : Store) (sessionId : Nat) (now : Int) :
    Store × Confirmation :=
  let c : Confirmation :=
    { id := st.nextConfirmationId, sessionId := sessionId, promptTime := now
      responded := false, responseTime := none, summary := none, messageId := none }
  ({ st with confirmations := st.confirmations ++ [c]
             nextConfirmationId := st.nextConfirmationId + 1 }, c)

/-- Row match for `WHERE id = $cid AND responded = false`. -/
def confirmRespondCond (cid : Nat) (c : Confirmation) : Bool :=
  c.id == cid && !c.responded

/-- The `SET responded = true, response_time = $1, summary = $2` part of
`ConfirmationRepository.respond_to_confirmation`. -/
def respondRow (now : Int) (summary : String) (c : Confirmation) : Confirmation :=
  { c with responded := true, responseTime := some now, summary := some summary }

/-- `ConfirmationRepository.respond_to_confirmation`: conditional update
guarded by `responded = false`, returning the updated row or `none`. -/
def respond_to_confirmation (st : Store) (cid : Nat) (now : Int) (summary : String) :
    Store × Option Confirmation :=
  ({ st with
      confirmations := st.confirmations.map fun c =>
        if confirmRespondCond cid c then respondRow now summary c else c },
   ((st.confirmations.filter (confirmRespondCond cid)).head?).map
      (respondRow now summary))

/-- Insertion step of the `ORDER BY` model: place `c` before the first
element it should precede under `le`. -/
def insertSorted (le : Confirmation → Confirmation → Bool) (c : Confirmation) :
    List Confirmation → List Confirmation
  | [] => [c]
  | d :: ds => if le c d then c :: d :: ds else d :: insertSorted le c ds

/-- Insertion sort used to model SQL `ORDER BY` on confirmation queries. -/
def sortedBy (le : Confirmation → Confirmation → Bool) :
    List Confirmation → List Confirmation
  | [] => []
  | c :: cs => insertSorted le c (sortedBy le cs)

/-- `ConfirmationRepository.get_pending_confirmations`: rows with
`responded = false` for the session, `ORDER BY prompt_time DESC`. -/
def get_pending_confirmations (st : Store) (sessionId : Nat) : List Confirmation :=
  sortedBy (fun a b => b.promptTime ≤ a.promptTime)
    (st.confirmations.filter fun c => c.sessionId == sessionId && !c.responded)

/-- `ConfirmationRepository.get_session_confirmations`: all rows for the
session, `ORDER BY prompt_time` ascending. -/
def get_session_confirmations (st : Store) (sessionId : Nat) : List Confirmation :=
  sortedBy (fun a b => a.promptTime ≤ b.promptTime)
    (st.confirmations.filter fun c => c.sessionId == sessionId)

/-! ## Scheduler decision logic (`src/tasks/scheduler.py`) -/

/-- The per-session fields the tick query of `_check_active_sessions`
hands to `_process_session` (joined session + project-policy columns). -/
structure SessionData where
  sessionId : Nat
  startTime : Int
  checkInterval : Int
  defaultTimeout : Int
  deriving Repr, DecidableEq

/-- Outcome of one `_process_session` call: the store it leaves behind,
whether `_check_timeout` reported the session ended (`session_ended`),
whether `_update_ui_for_auto_end` was invoked, and whether a new
confirmation row was created on the prompt path. -/
structure ProcessResult where
  store : Store
  sessionEnded : Bool
  uiInvoked : Bool
  promptCreated : Bool
  deriving Repr, DecidableEq

/-- What happens on the Discord side of `send_confirmation_request` after
the confirmation row is inserted: `bot.get_channel` misses,
`bot.get_user` misses, `channel.send` raises, or the prompt message is
delivered with the given message id. -/
inductive DeliveryOutcome where
  | channelNotFound
  | userNotFound
  | sendRaised
  | delivered (messageId : Nat)
  deriving Repr, DecidableEq

/-- `AttendanceScheduler._check_timeout`: walk the pending confirmations
(most recent first); on the first whose age `now - prompt_time` reaches
`default_timeout`, re-read the session, and if it is still active issue
the conditional `end_session` write (summary "自動終了: 応答なし", status
`auto`), invoking the auto-end UI hook only when that write returned an
affected row; return `true` as soon as a timeout was detected and `false`
when none was. -/
def check_timeout (st : Store) (sessionId : Nat) (pending : List Confirmation)
    (defaultTimeout : Int) (now : Int) : ProcessResult :=
  match pending with
  | [] => ⟨st, false, false, false⟩
  | c :: rest =>
    if defaultTimeout ≤ now - c.promptTime then
      match get_session st sessionId with
      | none => ⟨st, true, false, false⟩
      | some s =>
        if s.endTime.isSome then ⟨st, true, false, false⟩
        else
          let r := end_session st sessionId now (some "自動終了: 応答なし") "auto"
          match r.2 with
          | some _ => ⟨r.1, true, true, false⟩
          | none => ⟨r.1, true, false, false⟩
    else check_timeout st sessionId rest defaultTimeout now

/-- Key used by `max(responded_confirmations, key=lambda x: x['response_time'])`;
for responded rows `response_time` is always set, the default only makes
the model total. -/
def rtKey (c : Confirmation) : Int :=
  c.responseTime.getD 0

/-- Python `max(..., key=rtKey)`: the first element attaining the maximal
key (later elements replace only on a strictly greater key). -/
def maxByRT : List Confirmation → Option Confirmation
  | [] => none
  | c :: cs =>
    match maxByRT cs with
    | none => some c
    | some m => if rtKey c < rtKey m then some m else some c

/-- Python `min(..., key=lambda x: x['prompt_time'])`: the first element
attaining the minimal prompt time. -/
def minByPT : List Confirmation → Option Confirmation
  | [] => none
  | c :: cs =>
    match minByPT cs with
    | none => some c
    | some m => if m.promptTime < c.promptTime then some m else some c

/-- `AttendanceScheduler._calculate_next_confirmation_time`: with no
confirmations the first prompt is due `check_interval` after the session
start; with responded confirmations, `check_interval` after the latest
`response_time`; with only unresponded ones, `check_interval` after the
earliest `prompt_time`. -/
def calculate_next_confirmation_time (st : Store) (sessionId : Nat)
    (startTime : Int) (checkInterval : Int) : Int :=
  let all := get_session_confirmations st sessionId
  match all with
  | [] => startTime + checkInterval
  | _ =>
    let respondedC := all.filter (·.responded)
    match respondedC with
    | [] =>
      match minByPT all with
      | some c => c.promptTime + checkInterval
      | none => startTime + checkInterval
    | _ =>
      match maxByRT respondedC with
      | some c => rtKey c + checkInterval
      | none => startTime + checkInterval

/-- `send_confirmation_request` (`src/views/confirm_view.py`): the
confirmation row is inserted first; only then are channel and user looked
up and the prompt message sent.  On any failure the function returns
`None` but the inserted row is kept untouched; on success it returns the
confirmation — without ever writing the sent message's id back to the
row's `message_id` column. -/
def send_confirmation_request (st : Store) (sessionId : Nat) (now : Int)
    (outcome : DeliveryOutcome) : Store × Option Confirmation :=
  let r := create_confirmation st sessionId now
  match outcome with
  | .channelNotFound => (r.1, none)
  | .userNotFound => (r.1, none)
  | .sendRaised => (r.1, none)
  | .delivered _ => (r.1, some r.2)

/-- `AttendanceScheduler._process_session` against one store snapshot:
re-read the session and stop if ended; with pending confirmations run only
`_check_timeout` (never issuing a new prompt); otherwise compute the next
confirmation time and, when `now` has reached it, re-check the session
(`_process_session`'s final guard and `_send_confirmation`'s own guard)
and send the prompt via `send_confirmation_request`. -/
def process_session (st : Store) (sd : SessionData) (now : Int)
    (outcome : DeliveryOutcome) : ProcessResult :=
  match get_session st sd.sessionId with
  | none => ⟨st, false, false, false⟩
  | some s =>
    if s.endTime.isSome then ⟨st, false, false, false⟩
    else
      match get_pending_confirmations st sd.sessionId with
      | c :: rest =>
        check_timeout st sd.sessionId (c :: rest) sd.defaultTimeout now
      | [] =>
        match get_session st sd.sessionId with
        | none => ⟨st, false, false, false⟩
        | some s₂ =>
          if s₂.endTime.isSome then ⟨st, false, false, false⟩
          else
            let due := calculate_next_confirmation_time st sd.sessionId
              sd.startTime sd.checkInterval
            if due ≤ now then
              match get_session st sd.sessionId with
              | none => ⟨st, false, false, false⟩
              | some s₃ =>
                if s₃.endTime.isSome then ⟨st, false, false, false⟩
                else
                  let r := send_confirmation_request st sd.sessionId now outcome
                  ⟨r.1, false, false, true⟩
            else ⟨st, false, false, false⟩

/-- `_cleanup_pending_confirmation_messages`: the message ids it can
actually delete — those recorded in `message_id` on the session's pending
confirmations (rows without one are skipped with a debug log). -/
def cleanup_deletable_message_ids (st : Store) (sessionId : Nat) : List Nat :=
  (get_pending_confirmations st sessionId).filterMap (·.messageId)

/-! ## Tick loop (`_check_active_sessions`) with fault injection -/

/-- One row of the tick query together with a fault injected into that
session's processing: `fault = some msg` models a store or gateway call
raising inside `_process_session`, which its own `except` block catches
and logs (the model does not track partial effects of the failed call). -/
structure Candidate where
  sd : SessionData
  rowEndTime : Option Int
  fault : Option String
  deriving Repr, DecidableEq

/-- `_process_session` including its surrounding `try/except`: a raise is
caught and logged, leaving the store as it was; the function never
propagates an error. -/
def process_session_caught (st : Store) (c : Candidate) (now : Int)
    (outcome : DeliveryOutcome) : Store :=
  match c.fault with
  | some _ => st
  | none => (process_session st c.sd now outcome).store

/-- The per-row loop of `_check_active_sessions`: rows whose snapshot
`end_time` is no longer null are skipped, every other candidate is handed
to `_process_session` with its exception guard.  (The
`_processing_sessions` in-flight set never rejects a row within one
sequential tick: ids are added before and discarded after each call.) -/
def tick_process (st : Store) (now : Int) (outcome : DeliveryOutcome)
    (cands : List Candidate) : Store :=
  cands.foldl
    (fun acc c =>
      if c.rowEndTime.isSome then acc
      else process_session_caught acc c now outcome) st

/-! ## Operation sequences for the store invariants -/

/-- The core operations that touch `attendance_sessions` or
`confirmations`: interactive start-work, interactive end-work, one
scheduler pass over a session, and an interactive confirmation response. -/
inductive Op where
  | startSession (guildUserId projectId : Nat) (now : Int)
  | endSession (sessionId : Nat) (now : Int) (summary : Option String) (status : String)
  | processSession (sd : SessionData) (now : Int) (outcome : DeliveryOutcome)
  | respond (confirmationId : Nat) (now : Int) (summary : String)
  deriving Repr, DecidableEq

/-- Apply one core operation to the store, dropping the returned rows. -/
def applyOp (st : Store) : Op → Store
  | .startSession u p now => (start_session st u p now).1
  | .endSession sid now summary status => (end_session st sid now summary status).1
  | .processSession sd now outcome => (process_session st sd now outcome).store
  | .respond cid now summary => (respond_to_confirmation st cid now summary).1

/-- Number of active (`end_time IS NULL`) sessions a user owns. -/
def activeCount (st : Store) (guildUserId : Nat) : Nat :=
  (st.sessions.filter fun s => s.guildUserId == guildUserId && s.endTime.isNone).length

/-- Number of unresponded confirmations a session owns. -/
def pendingCount (st : Store) (sessionId : Nat) : Nat :=
  (st.confirmations.filter fun c => c.sessionId == sessionId && !c.responded).length

/-- §3 invariant: at most one active session per user. -/
def atMostOneActive (st : Store) : Prop :=
  ∀ u, activeCount st u ≤ 1

/-- §3 invariant: at most one outstanding confirmation per session. -/
def atMostOnePending (st : Store) : Prop :=
  ∀ sid, pendingCount st sid ≤ 1

/-! ## List helper lemmas -/

theorem map_eq_self_of_eq {α : Type} {l : List α} {f : α → α}
    (h : ∀ a ∈ l, f a = a) : l.map f = l := by
  induction l with
  | nil => rfl
  | cons a as ih =>
    simp only [List.map_cons]
    rw [h a (List.mem_cons_self a as), ih fun b hb => h b (List.mem_cons_of_mem a hb)]

theorem length_filter_le_cons {α : Type} (a : α) (l : List α) (p : α → Bool) :
    (l.filter p).length ≤ ((a :: l).filter p).length := by
  simp only [List.filter_cons]
  by_cases hp : p a
  · simp [hp, Nat.le_succ]
  · simp [hp]

theorem length_filter_condMap_le {α : Type} (l : List α) (cond : α → Bool)
    (f : α → α) (p : α → Bool) (hf : ∀ a, p (f a) = false) :
    ((l.map fun a => if cond a then f a else a).filter p).length
      ≤ (l.filter p).length := by
  induction l with
  | nil => simp
  | cons a as ih =>
    simp only [List.map_cons]
    by_cases hc : cond a
    · rw [if_pos hc]
      calc ((f a :: (as.map fun a => if cond a then f a else a)).filter p).length
          = ((as.map fun a => if cond a then f a else a).filter p).length := by
            simp [List.filter_cons, hf a]
        _ ≤ (as.filter p).length := ih
        _ ≤ ((a :: as).filter p).length := length_filter_le_cons a as p
    · rw [if_neg hc]
      simp only [List.filter_cons]
      by_cases hp : p a
      · simp only [hp, if_pos, List.length_cons]
        exact Nat.succ_le_succ ih
      · simp only [hp]
        exact ih

theorem filter_condMap_eq_nil {α : Type} {l : List α} {cond : α → Bool}
    {f : α → α} {p : α → Bool} (hf : ∀ a, p (f a) = false)
    (h : ∀ a ∈ l, p a = true → cond a = true) :
    (l.map fun a => if cond a then f a else a).filter p = [] := by
  rw [List.filter_eq_nil_iff]
  intro b hb
  rcases List.mem_map.mp hb with ⟨a, ha, rfl⟩
  by_cases hc : cond a
  · rw [if_pos hc]
    simp [hf a]
  · rw [if_neg hc]
    intro hpa
    exact hc (h a ha hpa)

theorem insertSorted_ne_nil (le : Confirmation → Confirmation → Bool)
    (c : Confirmation) (l : List Confirmation) : insertSorted le c l ≠ [] := by
  cases l with
  | nil => simp [insertSorted]
  | cons d ds =>
    simp only [insertSorted]
    by_cases h : le c d
    · simp [h]
    · simp [h]

theorem mem_insertSorted {le : Confirmation → Confirmation → Bool}
    {c x : Confirmation} {l : List Confirmation} :
    x ∈ insertSorted le c l ↔ x = c ∨ x ∈ l := by
  induction l with
  | nil => simp [insertSorted]
  | cons d ds ih =>
    simp only [insertSorted]
    by_cases h : le c d
    · simp only [if_pos h, List.mem_cons]
    · simp only [if_neg h, List.mem_cons, ih]
      tauto

theorem mem_sortedBy {le : Confirmation → Confirmation → Bool}
    {x : Confirmation} {l : List Confirmation} :
    x ∈ sortedBy le l ↔ x ∈ l := by
  induction l with
  | nil => simp [sortedBy]
  | cons c cs ih =>
    simp only [sortedBy, mem_insertSorted, List.mem_cons, ih]

theorem sortedBy_eq_nil_iff {le : Confirmation → Confirmation → Bool}
    {l : List Confirmation} : sortedBy le l = [] ↔ l = [] := by
  cases l with
  | nil => simp [sortedBy]
  | cons c cs =>
    simp only [sortedBy]
    exact ⟨fun h => absurd h (insertSorted_ne_nil le c (sortedBy le cs)),
      fun h => absurd h (List.cons_ne_nil c cs)⟩

/-! ## Store-query lemmas -/

theorem get_session_mem {st : Store} {sid : Nat} {s : Session}
    (h : get_session st sid = some s) : s ∈ st.sessions ∧ s.id = sid := by
  unfold get_session at h
  cases hf : st.sessions.filter (fun s => s.id == sid) with
  | nil => rw [hf] at h; simp at h
  | cons a t =>
    rw [hf] at h
    simp only [List.head?_cons, Option.some.injEq] at h
    subst h
    have ha : a ∈ st.sessions.filter (fun s => s.id == sid) :=
      hf ▸ List.mem_cons_self a t
    have hm := List.mem_filter.mp ha
    exact ⟨hm.1, by simpa using hm.2⟩

theorem get_active_session_mem {st : Store} {u : Nat} {s : Session}
    (h : get_active_session st u = some s) :
    s ∈ st.sessions ∧ s.guildUserId = u ∧ s.endTime = none := by
  unfold get_active_session at h
  cases hf : st.sessions.filter (fun s => s.guildUserId == u && s.endTime.isNone) with
  | nil => rw [hf] at h; simp at h
  | cons a t =>
    rw [hf] at h
    simp only [List.head?_cons, Option.some.injEq] at h
    subst h
    have ha : a ∈ st.sessions.filter (fun s => s.guildUserId == u && s.endTime.isNone) :=
      hf ▸ List.mem_cons_self a t
    have hm := List.mem_filter.mp ha
    refine ⟨hm.1, ?_, ?_⟩
    · have := hm.2
      simp only [Bool.and_eq_true, beq_iff_eq] at this
      exact this.1
    · have := hm.2
      simp only [Bool.and_eq_true, Option.isNone_iff_eq_none] at this
      exact this.2

/-! ## `end_session` lemmas -/

theorem end_session_confirmations (st : Store) (sid : Nat) (now : Int)
    (summary : Option String) (status : String) :
    (end_session st sid now summary status).1.confirmations = st.confirmations := rfl

theorem end_session_counters (st : Store) (sid : Nat) (now : Int)
    (summary : Option String) (status : String) :
    (end_session st sid now summary status).1.nextSessionId = st.nextSessionId ∧
    (end_session st sid now summary status).1.nextConfirmationId = st.nextConfirmationId :=
  ⟨rfl, rfl⟩

theorem end_session_isSome_iff (st : Store) (sid : Nat) (now : Int)
    (summary : Option String) (status : String) :
    (end_session st sid now summary status).2.isSome = true
      ↔ ∃ s ∈ st.sessions, s.id = sid ∧ s.endTime = none := by
  unfold end_session
  cases hf : st.sessions.filter (sessionEndCond sid) with
  | nil =>
    simp only [hf, List.head?_nil, Option.map_none', Option.isSome_none,
      Bool.false_eq_true, false_iff]
    rintro ⟨s, hs, hid, hend⟩
    have : s ∈ st.sessions.filter (sessionEndCond sid) :=
      List.mem_filter.mpr ⟨hs, by simp [sessionEndCond, hid, hend]⟩
    rw [hf] at this
    simp at this
  | cons a t =>
    simp only [hf, List.head?_cons, Option.map_some', Option.isSome_some, true_iff]
    have ha := List.mem_filter.mp (hf ▸ List.mem_cons_self a t)
    refine ⟨a, ha.1, ?_, ?_⟩
    · have := ha.2
      simp only [sessionEndCond, Bool.and_eq_true, beq_iff_eq] at this
      exact this.1
    · have := ha.2
      simp only [sessionEndCond, Bool.and_eq_true, Option.isNone_iff_eq_none] at this
      exact this.2

theorem end_session_ends_matching {st : Store} {sid : Nat} {now : Int}
    {summary : Option String} {status : String} {s' : Session}
    (h : s' ∈ (end_session st sid now summary status).1.sessions)
    (hid : s'.id = sid) : s'.endTime.isSome = true := by
  unfold end_session at h
  simp only [List.mem_map] at h
  rcases h with ⟨s, hs, rfl⟩
  by_cases hc : sessionEndCond sid s
  · simp [hc, endSessionRow]
  · rw [if_neg hc]
    rw [if_neg hc] at hid
    simp only [sessionEndCond, Bool.and_eq_true, beq_iff_eq, not_and_or] at hc
    rcases hc with hne | hnn
    · exact absurd hid hne
    · cases he : s.endTime <;> simp_all

theorem end_session_noop {st : Store} {sid : Nat} (now : Int)
    (summary : Option String) (status : String)
    (h : ∀ s ∈ st.sessions, s.id = sid → s.endTime.isSome = true) :
    end_session st sid now summary status = (st, none) := by
  have hcond : ∀ s ∈ st.sessions, sessionEndCond sid s = false := by
    intro s hs
    simp only [sessionEndCond, Bool.and_eq_false_iff]
    by_cases hid : s.id = sid
    · right
      have := h s hs hid
      cases he : s.endTime <;> simp_all
    · left
      simpa using hid
  unfold end_session
  have hmap : (st.sessions.map fun s =>
      if sessionEndCond sid s then endSessionRow now summary status s else s) = st.sessions :=
    map_eq_self_of_eq fun s hs => if_neg (by simp [hcond s hs])
  have hfil : st.sessions.filter (sessionEndCond sid) = [] :=
    List.filter_eq_nil_iff.mpr fun s hs => by simp [hcond s hs]
  rw [hmap, hfil]
  cases st
  rfl

theorem get_session_end_session {st : Store} {sid : Nat} {s : Session}
    (h : get_session st sid = some s) (now : Int) (summary : Option String)
    (status : String) :
    get_session (end_session st sid now summary status).1 sid
      = some (if sessionEndCond sid s then endSessionRow now summary status s else s) := by
  unfold get_session at h ⊢
  unfold end_session
  have hid : ∀ x : Session,
      ((if sessionEndCond sid x then endSessionRow now summary status x else x).id == sid)
        = (x.id == sid) := by
    intro x
    by_cases hc : sessionEndCond sid x
    · simp [hc, endSessionRow]
    · simp [hc]
  rw [List.filter_map]
  have : (fun x : Session => x.id == sid) ∘
      (fun x => if sessionEndCond sid x then endSessionRow now summary status x else x)
      = fun x : Session => x.id == sid := by
    funext x
    exact hid x
  rw [this, List.head?_map, h]
  rfl

/-! ## `check_timeout` lemmas -/

theorem check_timeout_promptCreated (st : Store) (sid : Nat)
    (pending : List Confirmation) (t now : Int) :
    (check_timeout st sid pending t now).promptCreated = false := by
  induction pending with
  | nil => rfl
  | cons c rest ih =>
    unfold check_timeout
    by_cases hc : t ≤ now - c.promptTime
    · rw [if_pos hc]
      cases hg : get_session st sid with
      | none => rfl
      | some s =>
        by_cases he : s.endTime.isSome
        · simp [hg, he]
        · simp only [hg, he]
          cases (end_session st sid now (some "自動終了: 応答なし") "auto").2 <;> simp
    · rw [if_neg hc]
      exact ih

theorem check_timeout_confirmations (st : Store) (sid : Nat)
    (pending : List Confirmation) (t now : Int) :
    (check_timeout st sid pending t now).store.confirmations = st.confirmations := by
  induction pending with
  | nil => rfl
  | cons c rest ih =>
    unfold check_timeout
    by_cases hc : t ≤ now - c.promptTime
    · rw [if_pos hc]
      cases hg : get_session st sid with
      | none => rfl
      | some s =>
        by_cases he : s.endTime.isSome
        · simp [hg, he]
        · simp only [hg, he]
          cases (end_session st sid now (some "自動終了: 応答なし") "auto").2 <;>
            simp [end_session_confirmations]
    · rw [if_neg hc]
      exact ih

theorem check_timeout_no_trigger {st : Store} {sid : Nat}
    {pending : List Confirmation} {t now : Int}
    (h : ∀ c ∈ pending, ¬ t ≤ now - c.promptTime) :
    check_timeout st sid pending t now = ⟨st, false, false, false⟩ := by
  induction pending with
  | nil => rfl
  | cons c rest ih =>
    unfold check_timeout
    rw [if_neg (h c (List.mem_cons_self c rest))]
    exact ih fun d hd => h d (List.mem_cons_of_mem c hd)

theorem check_timeout_sessionEnded_of_trigger {st : Store} {sid : Nat}
    {pending : List Confirmation} {t now : Int}
    (h : ∃ c ∈ pending, t ≤ now - c.promptTime) :
    (check_timeout st sid pending t now).sessionEnded = true := by
  induction pending with
  | nil => simp at h
  | cons c rest ih =>
    unfold check_timeout
    by_cases hc : t ≤ now - c.promptTime
    · rw [if_pos hc]
      cases hg : get_session st sid with
      | none => rfl
      | some s =>
        by_cases he : s.endTime.isSome
        · simp [hg, he]
        · simp only [hg, he]
          cases (end_session st sid now (some "自動終了: 応答なし") "auto").2 <;> simp
    · rw [if_neg hc]
      rcases h with ⟨d, hd, hdt⟩
      rcases List.mem_cons.mp hd with rfl | hd'
      · exact absurd hdt hc
      · exact ih ⟨d, hd', hdt⟩

theorem check_timeout_sessionEnded_iff {st : Store} {sid : Nat}
    {pending : List Confirmation} {t now : Int} :
    (check_timeout st sid pending t now).sessionEnded = true
      ↔ ∃ c ∈ pending, t ≤ now - c.promptTime := by
  constructor
  · intro h
    by_contra hno
    push_neg at hno
    rw [check_timeout_no_trigger fun c hc => not_le.mpr (hno c hc)] at h
    simp at h
  · exact check_timeout_sessionEnded_of_trigger

theorem check_timeout_of_already_ended {st : Store} {sid : Nat}
    {pending : List Confirmation} {t now : Int}
    (h : ∀ s ∈ st.sessions, s.id = sid → s.endTime.isSome = true) :
    (check_timeout st sid pending t now).store = st ∧
    (check_timeout st sid pending t now).uiInvoked = false := by
  induction pending with
  | nil => exact ⟨rfl, rfl⟩
  | cons c rest ih =>
    unfold check_timeout
    by_cases hc : t ≤ now - c.promptTime
    · rw [if_pos hc]
      cases hg : get_session st sid with
      | none => exact ⟨rfl, rfl⟩
      | some s =>
        have hm := get_session_mem hg
        have he : s.endTime.isSome = true := h s hm.1 hm.2
        simp [he]
    · rw [if_neg hc]
      exact ih

theorem check_timeout_of_active_trigger {st : Store} {sid : Nat}
    {pending : List Confirmation} {t now : Int} {s : Session}
    (hs : get_session st sid = some s) (hend : s.endTime = none)
    (htrig : ∃ c ∈ pending, t ≤ now - c.promptTime) :
    check_timeout st sid pending t now
      = ⟨(end_session st sid now (some "自動終了: 応答なし") "auto").1,
         true, true, false⟩ := by
  induction pending with
  | nil => simp at htrig
  | cons c rest ih =>
    unfold check_timeout
    by_cases hc : t ≤ now - c.promptTime
    · rw [if_pos hc]
      have hm := get_session_mem hs
      have hsome : (end_session st sid now (some "自動終了: 応答なし") "auto").2.isSome = true :=
        (end_session_isSome_iff st sid now (some "自動終了: 応答なし") "auto").mpr
          ⟨s, hm.1, hm.2, hend⟩
      simp only [hs, hend, Option.isSome_none]
      cases hr : (end_session st sid now (some "自動終了: 応答なし") "auto").2 with
      | none => rw [hr] at hsome; simp at hsome
      | some v => simp
    · rw [if_neg hc]
      rcases htrig with ⟨d, hd, hdt⟩
      rcases List.mem_cons.mp hd with rfl | hd'
      · exact absurd hdt hc
      · exact ih ⟨d, hd', hdt⟩

theorem check_timeout_uiInvoked_imp {st : Store} {sid : Nat}
    {pending : List Confirmation} {t now : Int}
    (h : (check_timeout st sid pending t now).uiInvoked = true) :
    ∃ s ∈ st.sessions, s.id = sid ∧ s.endTime = none := by
  induction pending with
  | nil => simp [check_timeout] at h
  | cons c rest ih =>
    unfold check_timeout at h
    by_cases hc : t ≤ now - c.promptTime
    · rw [if_pos hc] at h
      cases hg : get_session st sid with
      | none => rw [hg] at h; simp at h
      | some s =>
        rw [hg] at h
        by_cases he : s.endTime.isSome
        · simp [he] at h
        · simp only [he] at h
          cases hr : (end_session st sid now (some "自動終了: 応答なし") "auto").2 with
          | none => rw [hr] at h; simp at h
          | some v =>
            exact (end_session_isSome_iff st sid now (some "自動終了: 応答なし") "auto").mp
              (by rw [hr]; rfl)
    · rw [if_neg hc] at h
      exact ih h

/-! ## `maxByRT` / `minByPT` lemmas -/

theorem maxByRT_eq_none_iff {l : List Confirmation} : maxByRT l = none ↔ l = [] := by
  cases l with
  | nil => simp [maxByRT]
  | cons c cs =>
    simp only [maxByRT]
    cases maxByRT cs with
    | none => simp
    | some m =>
      by_cases h : rtKey c < rtKey m <;> simp [h]

theorem maxByRT_mem_and_max {l : List Confirmation} {m : Confirmation}
    (h : maxByRT l = some m) : m ∈ l ∧ ∀ x ∈ l, rtKey x ≤ rtKey m := by
  induction l generalizing m with
  | nil => simp [maxByRT] at h
  | cons c cs ih =>
    unfold maxByRT at h
    cases hm : maxByRT cs with
    | none =>
      rw [hm] at h
      dsimp only at h
      have hnil : cs = [] := maxByRT_eq_none_iff.mp hm
      subst hnil
      simp only [Option.some.injEq] at h
      subst h
      exact ⟨List.mem_cons_self c [], by simp⟩
    | some m' =>
      rw [hm] at h
      dsimp only at h
      obtain ⟨hm'mem, hm'max⟩ := ih hm
      by_cases hlt : rtKey c < rtKey m'
      · rw [if_pos hlt] at h
        simp only [Option.some.injEq] at h
        subst h
        refine ⟨List.mem_cons_of_mem c hm'mem, ?_⟩
        intro x hx
        rcases List.mem_cons.mp hx with rfl | hx'
        · exact le_of_lt hlt
        · exact hm'max x hx'
      · rw [if_neg hlt] at h
        simp only [Option.some.injEq] at h
        subst h
        refine ⟨List.mem_cons_self c cs, ?_⟩
        intro x hx
        rcases List.mem_cons.mp hx with rfl | hx'
        · exact le_refl _
        · exact le_trans (hm'max x hx') (not_lt.mp hlt)

/-! ## `send_confirmation_request` lemmas -/

theorem send_confirmation_request_sessions (st : Store) (sid : Nat) (now : Int)
    (outcome : DeliveryOutcome) :
    (send_confirmation_request st sid now outcome).1.sessions = st.sessions := by
  cases outcome <;> rfl

theorem send_confirmation_request_confirmations (st : Store) (sid : Nat) (now : Int)
    (outcome : DeliveryOutcome) :
    (send_confirmation_request st sid now outcome).1.confirmations
      = st.confirmations ++
        [{ id := st.nextConfirmationId, sessionId := sid, promptTime := now
           responded := false, responseTime := none, summary := none
           messageId := none }] := by
  cases outcome <;> rfl

/-! ## Invariant-preservation lemmas -/

theorem eq_singleton_of_head_of_len_le {α : Type} {l : List α} {r : α}
    (hh : l.head? = some r) (hl : l.length ≤ 1) : l = [r] := by
  cases l with
  | nil => simp at hh
  | cons a t =>
    simp only [List.head?_cons, Option.some.injEq] at hh
    subst hh
    cases t with
    | nil => rfl
    | cons b t' =>
      simp only [List.length_cons] at hl
      omega

theorem activeCount_sessions_congr {st st' : Store} (h : st'.sessions = st.sessions)
    (u : Nat) : activeCount st' u = activeCount st u := by
  unfold activeCount
  rw [h]

theorem pendingCount_confirmations_congr {st st' : Store}
    (h : st'.confirmations = st.confirmations) (sid : Nat) :
    pendingCount st' sid = pendingCount st sid := by
  unfold pendingCount
  rw [h]

theorem activeCount_end_session_le (st : Store) (sid : Nat) (now : Int)
    (summary : Option String) (status : String) (u : Nat) :
    activeCount (end_session st sid now summary status).1 u ≤ activeCount st u := by
  unfold activeCount end_session
  exact length_filter_condMap_le _ _ _ _ fun s => by simp [endSessionRow]

theorem activeCount_check_timeout_le (st : Store) (sid : Nat)
    (pending : List Confirmation) (t now : Int) (u : Nat) :
    activeCount (check_timeout st sid pending t now).store u ≤ activeCount st u := by
  induction pending with
  | nil => exact le_refl _
  | cons c rest ih =>
    unfold check_timeout
    by_cases hc : t ≤ now - c.promptTime
    · rw [if_pos hc]
      cases hg : get_session st sid with
      | none => exact le_refl _
      | some s =>
        by_cases he : s.endTime.isSome
        · simp only [he, if_true]
          exact le_refl _
        · simp only [he, Bool.false_eq_true, if_false]
          cases hr : (end_session st sid now (some "自動終了: 応答なし") "auto").2 with
          | none => exact activeCount_end_session_le st sid now _ _ u
          | some v => exact activeCount_end_session_le st sid now _ _ u
    · rw [if_neg hc]
      exact ih

theorem activeCount_process_session_le (st : Store) (sd : SessionData) (now : Int)
    (outcome : DeliveryOutcome) (u : Nat) :
    activeCount (process_session st sd now outcome).store u ≤ activeCount st u := by
  unfold process_session
  cases hg : get_session st sd.sessionId with
  | none => exact le_refl _
  | some s =>
    dsimp only
    by_cases he : s.endTime.isSome
    · rw [if_pos he]
    · rw [if_neg he]
      cases hp : get_pending_confirmations st sd.sessionId with
      | cons c rest =>
        exact activeCount_check_timeout_le st sd.sessionId (c :: rest) sd.defaultTimeout now u
      | nil =>
        dsimp only
        rw [if_neg he]
        by_cases hdue : calculate_next_confirmation_time st sd.sessionId sd.startTime
            sd.checkInterval ≤ now
        · rw [if_pos hdue, if_neg he]
          exact le_of_eq (activeCount_sessions_congr
            (send_confirmation_request_sessions st sd.sessionId now outcome) u)
        · rw [if_neg hdue]

theorem respond_sessions (st : Store) (cid : Nat) (now : Int) (summary : String) :
    (respond_to_confirmation st cid now summary).1.sessions = st.sessions := rfl

theorem start_session_confirmations (st : Store) (u p : Nat) (now : Int) :
    (start_session st u p now).1.confirmations = st.confirmations := by
  unfold start_session
  cases get_active_session st u <;> rfl

theorem activeCount_start_session (st : Store) (u p : Nat) (now : Int)
    (hinv : atMostOneActive st) (v : Nat) :
    activeCount (start_session st u p now).1 v ≤ 1 := by
  unfold start_session
  cases hg : get_active_session st u with
  | none =>
    dsimp only
    unfold activeCount
    rw [List.filter_append]
    by_cases hv : v = u
    · subst hv
      have hfil : st.sessions.filter (fun s => s.guildUserId == v && s.endTime.isNone)
          = [] := by
        unfold get_active_session at hg
        exact List.head?_eq_none_iff.mp hg
      rw [hfil]
      simp
    · have hnew : (List.filter (fun s => s.guildUserId == v && s.endTime.isNone)
          [({ id := st.nextSessionId, guildUserId := u, projectId := p
              startTime := now, endTime := none, endSummary := none
              status := "manual", startMessageId := none } : Session)]) = [] := by
        simp only [List.filter, List.filter_nil]
        have : (u == v) = false := by
          simp only [beq_eq_false_iff_ne, ne_eq]
          exact fun h => hv h.symm
        simp [this]
      rw [hnew, List.append_nil]
      exact hinv v
  | some r =>
    dsimp only
    obtain ⟨hrmem, hruser, hrend⟩ := get_active_session_mem hg
    unfold activeCount end_session
    dsimp only
    rw [List.filter_append]
    by_cases hv : v = u
    · subst hv
      have hzero : List.filter (fun s => s.guildUserId == v && s.endTime.isNone)
          (st.sessions.map fun s =>
            if sessionEndCond r.id s then
              endSessionRow now (some "自動終了: 新しいセッション開始のため") "manual" s
            else s) = [] := by
        apply filter_condMap_eq_nil
        · intro a
          simp [endSessionRow]
        · intro a ha hpa
          have hmemfil : a ∈ st.sessions.filter
              (fun s => s.guildUserId == v && s.endTime.isNone) :=
            List.mem_filter.mpr ⟨ha, hpa⟩
          have hhead : (st.sessions.filter
              (fun s => s.guildUserId == v && s.endTime.isNone)).head? = some r := hg
          have hsing := eq_singleton_of_head_of_len_le hhead (hinv v)
          rw [hsing] at hmemfil
          simp only [List.mem_singleton] at hmemfil
          subst hmemfil
          simp [sessionEndCond, hrend]
      rw [hzero]
      simp
    · have hnew : (List.filter (fun s => s.guildUserId == v && s.endTime.isNone)
          [({ id := st.nextSessionId,
              guildUserId := u, projectId := p
              startTime := now, endTime := none, endSummary := none
              status := "manual", startMessageId := none } : Session)]) = [] := by
        simp only [List.filter, List.filter_nil]
        have : (u == v) = false := by
          simp only [beq_eq_false_iff_ne, ne_eq]
          exact fun h => hv h.symm
        simp [this]
      rw [hnew, List.append_nil]
      calc (List.filter (fun s => s.guildUserId == v && s.endTime.isNone)
              (st.sessions.map fun s =>
                if sessionEndCond r.id s then
                  endSessionRow now (some "自動終了: 新しいセッション開始のため") "manual" s
                else s)).length
          ≤ (st.sessions.filter (fun s => s.guildUserId == v && s.endTime.isNone)).length :=
            length_filter_condMap_le _ _ _ _ fun s => by simp [endSessionRow]
        _ ≤ 1 := hinv v

theorem pendingCount_respond_le (st : Store) (cid : Nat) (now : Int)
    (summary : String) (k : Nat) :
    pendingCount (respond_to_confirmation st cid now summary).1 k
      ≤ pendingCount st k := by
  unfold pendingCount respond_to_confirmation
  exact length_filter_condMap_le _ _ _ _ fun c => by simp [respondRow]

theorem pendingCount_check_timeout (st : Store) (sid : Nat)
    (pending : List Confirmation) (t now : Int) (k : Nat) :
    pendingCount (check_timeout st sid pending t now).store k = pendingCount st k :=
  pendingCount_confirmations_congr (check_timeout_confirmations st sid pending t now) k

theorem pendingCount_send (st : Store) (sid : Nat) (now : Int)
    (outcome : DeliveryOutcome) (k : Nat) :
    pendingCount (send_confirmation_request st sid now outcome).1 k
      = pendingCount st k + (if sid == k then 1 else 0) := by
  unfold pendingCount
  rw [send_confirmation_request_confirmations, List.filter_append, List.length_append]
  congr 1
  by_cases h : sid == k
  · simp [h]
  · simp [h]

theorem pendingCount_process_session_le (st : Store) (sd : SessionData) (now : Int)
    (outcome : DeliveryOutcome) (hinv : atMostOnePending st) (k : Nat) :
    pendingCount (process_session st sd now outcome).store k ≤ 1 := by
  unfold process_session
  cases hg : get_session st sd.sessionId with
  | none => exact hinv k
  | some s =>
    dsimp only
    by_cases he : s.endTime.isSome
    · rw [if_pos he]
      exact hinv k
    · rw [if_neg he]
      cases hp : get_pending_confirmations st sd.sessionId with
      | cons c rest =>
        rw [pendingCount_check_timeout]
        exact hinv k
      | nil =>
        dsimp only
        rw [if_neg he]
        by_cases hdue : calculate_next_confirmation_time st sd.sessionId sd.startTime
            sd.checkInterval ≤ now
        · rw [if_pos hdue, if_neg he]
          rw [pendingCount_send]
          by_cases hk : sd.sessionId == k
          · have hkk : sd.sessionId = k := by simpa using hk
            have hzero : pendingCount st k = 0 := by
              have hfil : st.confirmations.filter
                  (fun c => c.sessionId == sd.sessionId && !c.responded) = [] :=
                sortedBy_eq_nil_iff.mp hp
              unfold pendingCount
              rw [← hkk, hfil]
              rfl
            rw [hzero, if_pos hk]
          · rw [if_neg hk]
            simpa using hinv k
        · rw [if_neg hdue]
          exact hinv k

/-! ## Operation-level invariant preservation -/

theorem applyOp_atMostOneActive {st : Store} (h : atMostOneActive st) (op : Op) :
    atMostOneActive (applyOp st op) := by
  cases op with
  | startSession u p now =>
    intro v
    exact activeCount_start_session st u p now h v
  | endSession sid now summary status =>
    intro v
    exact le_trans (activeCount_end_session_le st sid now summary status v) (h v)
  | processSession sd now outcome =>
    intro v
    exact le_trans (activeCount_process_session_le st sd now outcome v) (h v)
  | respond cid now summary =>
    intro v
    rw [show applyOp st (.respond cid now summary)
        = (respond_to_confirmation st cid now summary).1 from rfl]
    rw [activeCount_sessions_congr (respond_sessions st cid now summary) v]
    exact h v

theorem applyOp_atMostOnePending {st : Store} (h : atMostOnePending st) (op : Op) :
    atMostOnePending (applyOp st op) := by
  cases op with
  | startSession u p now =>
    intro k
    rw [show applyOp st (.startSession u p now) = (start_session st u p now).1 from rfl]
    rw [pendingCount_confirmations_congr (start_session_confirmations st u p now) k]
    exact h k
  | endSession sid now summary status =>
    intro k
    rw [show applyOp st (.endSession sid now summary status)
        = (end_session st sid now summary status).1 from rfl]
    rw [pendingCount_confirmations_congr (end_session_confirmations st sid now summary status) k]
    exact h k
  | processSession sd now outcome =>
    intro k
    exact pendingCount_process_session_le st sd now outcome h k
  | respond cid now summary =>
    intro k
    exact le_trans (pendingCount_respond_le st cid now summary k) (h k)

/-- C1: `end_session` updates an attendance session row only while its
`end_time` is still null and reports whether a row was affected (`some`
row iff an active row with that id existed).  For two end attempts on the
same session in sequence — interactive end-work and the scheduler's
auto-end, with arbitrary parameters on each side, so in either order —
the first mutates the row and the second returns `none` leaving the store
untouched; and after the row is taken, the scheduler's `_check_timeout`
path leaves the store unchanged and never invokes its notification/UI
side effects, which in general it invokes only when its own conditional
write found the row still active. -/
theorem end_session_first_writer_wins (st : Store) (sid : Nat)
    (now₁ now₂ : Int) (sum₁ sum₂ : Option String) (stat₁ stat₂ : String)
    (pending : List Confirmation) (t tnow : Int)
    (h : ∃ s ∈ st.sessions, s.id = sid ∧ s.endTime = none) :
    ((end_session st sid now₁ sum₁ stat₁).2.isSome = true
      ↔ ∃ s ∈ st.sessions, s.id = sid ∧ s.endTime = none) ∧
    (end_session st sid now₁ sum₁ stat₁).2.isSome = true ∧
    end_session (end_session st sid now₁ sum₁ stat₁).1 sid now₂ sum₂ stat₂
      = ((end_session st sid now₁ sum₁ stat₁).1, none) ∧
    (check_timeout (end_session st sid now₁ sum₁ stat₁).1 sid pending t tnow).store
      = (end_session st sid now₁ sum₁ stat₁).1 ∧
    (check_timeout (end_session st sid now₁ sum₁ stat₁).1 sid pending t tnow).uiInvoked
      = false ∧
    ((check_timeout st sid pending t tnow).uiInvoked = true
      → ∃ s ∈ st.sessions, s.id = sid ∧ s.endTime = none) := by
  have hiff := end_session_isSome_iff st sid now₁ sum₁ stat₁
  have hended : ∀ s' ∈ (end_session st sid now₁ sum₁ stat₁).1.sessions,
      s'.id = sid → s'.endTime.isSome = true :=
    fun s' hs' hid => end_session_ends_matching hs' hid
  have hafter := @check_timeout_of_already_ended
    (end_session st sid now₁ sum₁ stat₁).1 sid pending t tnow hended
  exact ⟨hiff, hiff.mpr h, end_session_noop now₂ sum₂ stat₂ hended,
    hafter.1, hafter.2, fun hui => check_timeout_uiInvoked_imp hui⟩

/-- C1 witness: a store holding one active session (id 1); the interactive
end at time 10 wins, the auto end at time 20 loses and is a no-op, and the
auto path invokes no UI side effects afterwards. -/
theorem end_session_first_writer_wins_witness :
    (∃ s ∈ (⟨[⟨1, 1, 1, 0, none, none, "manual", none⟩], [], 2, 1⟩ : Store).sessions,
        s.id = 1 ∧ s.endTime = none) ∧
    ((end_session ⟨[⟨1, 1, 1, 0, none, none, "manual", none⟩], [], 2, 1⟩ 1 10
        (some "done") "manual").2.isSome = true ∧
      end_session (end_session ⟨[⟨1, 1, 1, 0, none, none, "manual", none⟩], [], 2, 1⟩ 1 10
          (some "done") "manual").1 1 20 (some "自動終了: 応答なし") "auto"
        = ((end_session ⟨[⟨1, 1, 1, 0, none, none, "manual", none⟩], [], 2, 1⟩ 1 10
            (some "done") "manual").1, none)) :=
  ⟨by decide,
    ((end_session_first_writer_wins ⟨[⟨1, 1, 1, 0, none, none, "manual", none⟩], [], 2, 1⟩
        1 10 20 (some "done") (some "自動終了: 応答なし") "manual" "auto" [] 900 1000
        (by decide)).2.1),
    ((end_session_first_writer_wins ⟨[⟨1, 1, 1, 0, none, none, "manual", none⟩], [], 2, 1⟩
        1 10 20 (some "done") (some "自動終了: 応答なし") "manual" "auto" [] 900 1000
        (by decide)).2.2.1)⟩

/-- C2: with at least one unresponded confirmation outstanding, the
scheduler's per-session pass runs only timeout detection: it never
creates a new confirmation (even if the next-prompt due time has also
passed — the prompt branch is unreachable), it auto-ends the session
exactly when some outstanding confirmation's age `now - prompt_time` has
reached `default_timeout` (the ended row carrying `end_time = now` and
`status = auto`), and otherwise it takes no action at all, leaving the
store unchanged. -/
theorem pending_confirmation_timeout_priority (st : Store) (sd : SessionData)
    (now : Int) (outcome : DeliveryOutcome) {s : Session}
    (hs : get_session st sd.sessionId = some s) (hend : s.endTime = none)
    (hpending : get_pending_confirmations st sd.sessionId ≠ []) :
    (process_session st sd now outcome).promptCreated = false ∧
    (process_session st sd now outcome).store.confirmations = st.confirmations ∧
    ((process_session st sd now outcome).sessionEnded = true
      ↔ ∃ c ∈ get_pending_confirmations st sd.sessionId,
          sd.defaultTimeout ≤ now - c.promptTime) ∧
    ((∀ c ∈ get_pending_confirmations st sd.sessionId,
        now - c.promptTime < sd.defaultTimeout) →
      process_session st sd now outcome = ⟨st, false, false, false⟩) ∧
    ((∃ c ∈ get_pending_confirmations st sd.sessionId,
        sd.defaultTimeout ≤ now - c.promptTime) →
      get_session (process_session st sd now outcome).store sd.sessionId
        = some (endSessionRow now (some "自動終了: 応答なし") "auto" s)) := by
  cases hp : get_pending_confirmations st sd.sessionId with
  | nil => exact absurd hp hpending
  | cons c rest =>
    have hred : process_session st sd now outcome
        = check_timeout st sd.sessionId (c :: rest) sd.defaultTimeout now := by
      unfold process_session
      rw [hs, hp]
      simp [hend]
    rw [hred]
    refine ⟨check_timeout_promptCreated st sd.sessionId (c :: rest) sd.defaultTimeout now,
      check_timeout_confirmations st sd.sessionId (c :: rest) sd.defaultTimeout now,
      check_timeout_sessionEnded_iff, ?_, ?_⟩
    · intro hall
      exact check_timeout_no_trigger fun d hd => not_le.mpr (hall d hd)
    · intro htrig
      rw [check_timeout_of_active_trigger hs hend htrig]
      have := get_session_end_session hs now (some "自動終了: 応答なし") "auto"
      have hcond : sessionEndCond sd.sessionId s = true := by
        have hm := get_session_mem hs
        simp [sessionEndCond, hm.2, hend]
      rw [hcond] at this
      simpa using this

/-- C2 witness: session 1 started at 0 with one unresponded confirmation
prompted at time 0; at `now = 950` with `default_timeout = 900` the pass
creates no prompt and auto-ends the session. -/
theorem pending_confirmation_timeout_priority_witness :
    (process_session ⟨[⟨1, 1, 1, 0, none, none, "manual", none⟩],
        [⟨1, 1, 0, false, none, none, none⟩], 2, 2⟩ ⟨1, 0, 1800, 900⟩ 950
        (.delivered 9)).promptCreated = false ∧
    ((process_session ⟨[⟨1, 1, 1, 0, none, none, "manual", none⟩],
        [⟨1, 1, 0, false, none, none, none⟩], 2, 2⟩ ⟨1, 0, 1800, 900⟩ 950
        (.delivered 9)).sessionEnded = true
      ↔ ∃ c ∈ get_pending_confirmations ⟨[⟨1, 1, 1, 0, none, none, "manual", none⟩],
          [⟨1, 1, 0, false, none, none, none⟩], 2, 2⟩ 1,
          (900 : Int) ≤ 950 - c.promptTime) :=
  ⟨(pending_confirmation_timeout_priority
      ⟨[⟨1, 1, 1, 0, none, none, "manual", none⟩],
        [⟨1, 1, 0, false, none, none, none⟩], 2, 2⟩ ⟨1, 0, 1800, 900⟩ 950
      (.delivered 9) (s := ⟨1, 1, 1, 0, none, none, "manual", none⟩)
      (by decide) (by decide) (by decide)).1,
   (pending_confirmation_timeout_priority
      ⟨[⟨1, 1, 1, 0, none, none, "manual", none⟩],
        [⟨1, 1, 0, false, none, none, none⟩], 2, 2⟩ ⟨1, 0, 1800, 900⟩ 950
      (.delivered 9) (s := ⟨1, 1, 1, 0, none, none, "manual", none⟩)
      (by decide) (by decide) (by decide)).2.2.1⟩

theorem calculate_eq_of_all_responded {st : Store} {sid : Nat}
    {startTime checkInterval : Int} {c m : Confirmation} {cs : List Confirmation}
    (hac : get_session_confirmations st sid = c :: cs)
    (hresp : (c :: cs).filter (·.responded) = c :: cs)
    (hmx : maxByRT (c :: cs) = some m) :
    calculate_next_confirmation_time st sid startTime checkInterval
      = rtKey m + checkInterval := by
  unfold calculate_next_confirmation_time
  rw [hac]
  dsimp only
  rw [hresp]
  dsimp only
  rw [hmx]

/-- C3: for an active session with no unresponded confirmation, the next
prompt due time computed by `_calculate_next_confirmation_time` is
`start_time + check_interval` when the session has no confirmations at
all, and otherwise `response_time` of the most recently responded
confirmation plus `check_interval`; `_process_session` creates a new
prompt exactly when `now` has reached that due time, and leaves the store
untouched when `now` is earlier. -/
theorem no_pending_prompt_due_rule (st : Store) (sd : SessionData) (now : Int)
    (outcome : DeliveryOutcome) {s : Session}
    (hs : get_session st sd.sessionId = some s) (hend : s.endTime = none)
    (hpending : get_pending_confirmations st sd.sessionId = [])
    (hrt : ∀ c ∈ st.confirmations, c.responded = true → c.responseTime.isSome = true) :
    (get_session_confirmations st sd.sessionId = [] →
      calculate_next_confirmation_time st sd.sessionId sd.startTime sd.checkInterval
        = sd.startTime + sd.checkInterval) ∧
    (get_session_confirmations st sd.sessionId ≠ [] →
      ∃ m ∈ get_session_confirmations st sd.sessionId, m.responded = true ∧
        ∃ rt : Int, m.responseTime = some rt ∧
          (∀ c ∈ get_session_confirmations st sd.sessionId, rtKey c ≤ rt) ∧
          calculate_next_confirmation_time st sd.sessionId sd.startTime sd.checkInterval
            = rt + sd.checkInterval) ∧
    ((process_session st sd now outcome).promptCreated = true
      ↔ calculate_next_confirmation_time st sd.sessionId sd.startTime sd.checkInterval
          ≤ now) ∧
    (now < calculate_next_confirmation_time st sd.sessionId sd.startTime sd.checkInterval
      → process_session st sd now outcome = ⟨st, false, false, false⟩) := by
  have hallresp : ∀ c ∈ st.confirmations, c.sessionId = sd.sessionId →
      c.responded = true := by
    intro c hc hcs
    by_contra hnr
    have hfil : st.confirmations.filter
        (fun c => c.sessionId == sd.sessionId && !c.responded) = [] :=
      sortedBy_eq_nil_iff.mp hpending
    have : c ∈ st.confirmations.filter
        (fun c => c.sessionId == sd.sessionId && !c.responded) :=
      List.mem_filter.mpr ⟨hc, by simp [hcs, hnr]⟩
    rw [hfil] at this
    simp at this
  have hmemconf : ∀ c ∈ get_session_confirmations st sd.sessionId,
      c ∈ st.confirmations ∧ c.sessionId = sd.sessionId := by
    intro c hc
    have := List.mem_filter.mp (mem_sortedBy.mp hc)
    exact ⟨this.1, by simpa using this.2⟩
  have hrespeq : (get_session_confirmations st sd.sessionId).filter (·.responded)
      = get_session_confirmations st sd.sessionId := by
    rw [List.filter_eq_self]
    intro c hc
    exact hallresp c (hmemconf c hc).1 (hmemconf c hc).2
  refine ⟨?_, ?_, ?_, ?_⟩
  · intro hall
    unfold calculate_next_confirmation_time
    rw [hall]
  · intro hall
    cases hac : get_session_confirmations st sd.sessionId with
    | nil => exact absurd hac hall
    | cons c cs =>
      have hresp2 : (c :: cs).filter (·.responded) = c :: cs := by
        rw [← hac]
        exact hrespeq
      cases hmx : maxByRT (c :: cs) with
      | none =>
        have := maxByRT_eq_none_iff.mp hmx
        simp at this
      | some m =>
        obtain ⟨hmmem, hmmax⟩ := maxByRT_mem_and_max hmx
        have hmem2 : m ∈ get_session_confirmations st sd.sessionId := by
          rw [hac]
          exact hmmem
        have hmresp : m.responded = true :=
          hallresp m (hmemconf m hmem2).1 (hmemconf m hmem2).2
        obtain ⟨rt, hrt'⟩ := Option.isSome_iff_exists.mp
          (hrt m (hmemconf m hmem2).1 hmresp)
        have hkey : rtKey m = rt := by
          simp [rtKey, hrt']
        refine ⟨m, hmmem, hmresp, rt, hrt', ?_, ?_⟩
        · intro c' hc'
          rw [← hkey]
          exact hmmax c' hc'
        · rw [calculate_eq_of_all_responded hac hresp2 hmx, hkey]
  · have hred : process_session st sd now outcome
        = if calculate_next_confirmation_time st sd.sessionId sd.startTime
            sd.checkInterval ≤ now
          then ⟨(send_confirmation_request st sd.sessionId now outcome).1,
                false, false, true⟩
          else ⟨st, false, false, false⟩ := by
      unfold process_session
      rw [hs, hpending]
      simp [hend]
    rw [hred]
    by_cases hdue : calculate_next_confirmation_time st sd.sessionId sd.startTime
        sd.checkInterval ≤ now
    · simp [hdue]
    · simp [hdue]
  · intro hlt
    have hred : process_session st sd now outcome
        = if calculate_next_confirmation_time st sd.sessionId sd.startTime
            sd.checkInterval ≤ now
          then ⟨(send_confirmation_request st sd.sessionId now outcome).1,
                false, false, true⟩
          else ⟨st, false, false, false⟩ := by
      unfold process_session
      rw [hs, hpending]
      simp [hend]
    rw [hred, if_neg (not_le.mpr hlt)]

/-- C3 witness: session 1 (start 0, `check_interval = 1800`) whose single
confirmation was responded at time 100: the due time is `100 + 1800` and
at `now = 1900` a prompt is created exactly because `1900 ≤ 1900`. -/
theorem no_pending_prompt_due_rule_witness :
    ((process_session ⟨[⟨1, 1, 1, 0, none, none, "manual", none⟩],
        [⟨1, 1, 0, true, some 100, some "ok", none⟩], 2, 2⟩ ⟨1, 0, 1800, 900⟩ 1900
        (.delivered 9)).promptCreated = true
      ↔ calculate_next_confirmation_time ⟨[⟨1, 1, 1, 0, none, none, "manual", none⟩],
          [⟨1, 1, 0, true, some 100, some "ok", none⟩], 2, 2⟩ 1 0 1800 ≤ 1900) ∧
    (∃ m ∈ get_session_confirmations ⟨[⟨1, 1, 1, 0, none, none, "manual", none⟩],
        [⟨1, 1, 0, true, some 100, some "ok", none⟩], 2, 2⟩ 1, m.responded = true ∧
      ∃ rt : Int, m.responseTime = some rt ∧
        (∀ c ∈ get_session_confirmations ⟨[⟨1, 1, 1, 0, none, none, "manual", none⟩],
            [⟨1, 1, 0, true, some 100, some "ok", none⟩], 2, 2⟩ 1, rtKey c ≤ rt) ∧
        calculate_next_confirmation_time ⟨[⟨1, 1, 1, 0, none, none, "manual", none⟩],
          [⟨1, 1, 0, true, some 100, some "ok", none⟩], 2, 2⟩ 1 0 1800 = rt + 1800) :=
  ⟨(no_pending_prompt_due_rule ⟨[⟨1, 1, 1, 0, none, none, "manual", none⟩],
      [⟨1, 1, 0, true, some 100, some "ok", none⟩], 2, 2⟩ ⟨1, 0, 1800, 900⟩ 1900
      (.delivered 9) (s := ⟨1, 1, 1, 0, none, none, "manual", none⟩)
      (by decide) (by decide) (by decide) (by decide)).2.2.1,
   (no_pending_prompt_due_rule ⟨[⟨1, 1, 1, 0, none, none, "manual", none⟩],
      [⟨1, 1, 0, true, some 100, some "ok", none⟩], 2, 2⟩ ⟨1, 0, 1800, 900⟩ 1900
      (.delivered 9) (s := ⟨1, 1, 1, 0, none, none, "manual", none⟩)
      (by decide) (by decide) (by decide) (by decide)).2.1 (by decide)⟩

/-- C4: at most one active session per user.  Starting from any store
satisfying the invariant, any sequence of core operations — start-work
(which first auto-ends the user's active session through the conditional
`end_session` before inserting the new row), end-work, scheduler passes
and confirmation responses — preserves it: `end_session` only moves
`end_time` from null to a value, never back. -/
theorem at_most_one_active_session (ops : List Op) (st : Store)
    (h : atMostOneActive st) : atMostOneActive (ops.foldl applyOp st) := by
  induction ops generalizing st with
  | nil => exact h
  | cons op rest ih => exact ih _ (applyOp_atMostOneActive h op)

/-- C4 witness: from the empty store, user 1 starts work twice (the second
start auto-ends the first session) and ends a session; the user still has
at most one active session. -/
theorem at_most_one_active_session_witness :
    activeCount (List.foldl applyOp ⟨[], [], 1, 1⟩
      [.startSession 1 1 0, .startSession 1 2 5, .endSession 2 9 none "manual",
       .startSession 1 3 12]) 1 ≤ 1 :=
  at_most_one_active_session
    [.startSession 1 1 0, .startSession 1 2 5, .endSession 2 9 none "manual",
     .startSession 1 3 12] ⟨[], [], 1, 1⟩ (fun u => by simp [activeCount]) 1

/-- C5: at most one unresponded confirmation per session.  The scheduler
pass is the only core operation that creates confirmations, and it does so
only in the branch where it has just observed the session's pending list
to be empty; responding only flips `responded` from false to true; so any
sequence of core operations preserves the invariant. -/
theorem at_most_one_pending_confirmation (ops : List Op) (st : Store)
    (h : atMostOnePending st) : atMostOnePending (ops.foldl applyOp st) := by
  induction ops generalizing st with
  | nil => exact h
  | cons op rest ih => exact ih _ (applyOp_atMostOnePending h op)

/-- C5 witness: user 1 starts work at 0; the scheduler pass at time 1800
creates one confirmation, a second pass at 2000 creates none (one is
outstanding), the user responds at 2100, and a pass at 4000 creates a new
one; session 1 never holds more than one pending confirmation. -/
theorem at_most_one_pending_confirmation_witness :
    pendingCount (List.foldl applyOp ⟨[], [], 1, 1⟩
      [.startSession 1 1 0,
       .processSession ⟨1, 0, 1800, 900⟩ 1800 (.delivered 7),
       .processSession ⟨1, 0, 1800, 900⟩ 2000 (.delivered 8),
       .respond 1 2100 "ok",
       .processSession ⟨1, 0, 1800, 900⟩ 4000 (.delivered 9)]) 1 ≤ 1 :=
  at_most_one_pending_confirmation
    [.startSession 1 1 0,
     .processSession ⟨1, 0, 1800, 900⟩ 1800 (.delivered 7),
     .processSession ⟨1, 0, 1800, 900⟩ 2000 (.delivered 8),
     .respond 1 2100 "ok",
     .processSession ⟨1, 0, 1800, 900⟩ 4000 (.delivered 9)] ⟨[], [], 1, 1⟩
    (fun k => by simp [pendingCount]) 1

/-- C8 counterexample: session 1 is active with TWO unresponded
confirmations (prompted at 0 and at 50); at `now = 1000` with
`default_timeout = 900` the scheduler does NOT log-and-wait (AWAITING) as
the claim states: it auto-ends the session — `session_ended` and the UI
hook fire and the row is destructively ended at time 1000. -/
theorem two_pending_confirmations_auto_end :
    (get_pending_confirmations ⟨[⟨1, 1, 1, 0, none, none, "manual", none⟩],
        [⟨1, 1, 0, false, none, none, none⟩, ⟨2, 1, 50, false, none, none, none⟩],
        2, 3⟩ 1).length = 2 ∧
    (process_session ⟨[⟨1, 1, 1, 0, none, none, "manual", none⟩],
        [⟨1, 1, 0, false, none, none, none⟩, ⟨2, 1, 50, false, none, none, none⟩],
        2, 3⟩ ⟨1, 0, 1800, 900⟩ 1000 (.delivered 9)).sessionEnded = true ∧
    (process_session ⟨[⟨1, 1, 1, 0, none, none, "manual", none⟩],
        [⟨1, 1, 0, false, none, none, none⟩, ⟨2, 1, 50, false, none, none, none⟩],
        2, 3⟩ ⟨1, 0, 1800, 900⟩ 1000 (.delivered 9)).uiInvoked = true ∧
    ((process_session ⟨[⟨1, 1, 1, 0, none, none, "manual", none⟩],
        [⟨1, 1, 0, false, none, none, none⟩, ⟨2, 1, 50, false, none, none, none⟩],
        2, 3⟩ ⟨1, 0, 1800, 900⟩ 1000 (.delivered 9)).store.sessions.map
          Session.endTime) = [some 1000] := by decide

/-- C8 (amended): a session observed with two or more unresponded
confirmations receives no special error-level handling: the scheduler
still never issues a new prompt that tick, and it applies the ordinary
timeout rule to the outstanding confirmations — it auto-ends the session
exactly when at least one of them has age `≥ default_timeout`, and only
when none has does it take no action (leaving the store unchanged, as for
AWAITING). -/
theorem two_pending_confirmations_timeout_rule (st : Store) (sd : SessionData)
    (now : Int) (outcome : DeliveryOutcome) {s : Session}
    (hs : get_session st sd.sessionId = some s) (hend : s.endTime = none)
    (htwo : 2 ≤ (get_pending_confirmations st sd.sessionId).length) :
    (process_session st sd now outcome).promptCreated = false ∧
    (process_session st sd now outcome).store.confirmations = st.confirmations ∧
    ((process_session st sd now outcome).sessionEnded = true
      ↔ ∃ c ∈ get_pending_confirmations st sd.sessionId,
          sd.defaultTimeout ≤ now - c.promptTime) ∧
    ((∀ c ∈ get_pending_confirmations st sd.sessionId,
        now - c.promptTime < sd.defaultTimeout) →
      process_session st sd now outcome = ⟨st, false, false, false⟩) := by
  cases hp : get_pending_confirmations st sd.sessionId with
  | nil =>
    rw [hp] at htwo
    simp at htwo
  | cons c rest =>
    have hred : process_session st sd now outcome
        = check_timeout st sd.sessionId (c :: rest) sd.defaultTimeout now := by
      unfold process_session
      rw [hs, hp]
      simp [hend]
    rw [hred]
    refine ⟨check_timeout_promptCreated st sd.sessionId (c :: rest) sd.defaultTimeout now,
      check_timeout_confirmations st sd.sessionId (c :: rest) sd.defaultTimeout now,
      check_timeout_sessionEnded_iff, ?_⟩
    intro hall
    exact check_timeout_no_trigger fun d hd => not_le.mpr (hall d hd)

/-- C8 amended-claim witness: the same two-pending store at `now = 100`
(neither confirmation has timed out): no prompt is created and the pass
changes nothing. -/
theorem two_pending_confirmations_timeout_rule_witness :
    (process_session ⟨[⟨1, 1, 1, 0, none, none, "manual", none⟩],
        [⟨1, 1, 0, false, none, none, none⟩, ⟨2, 1, 50, false, none, none, none⟩],
        2, 3⟩ ⟨1, 0, 1800, 900⟩ 100 (.delivered 9)).promptCreated = false ∧
    process_session ⟨[⟨1, 1, 1, 0, none, none, "manual", none⟩],
        [⟨1, 1, 0, false, none, none, none⟩, ⟨2, 1, 50, false, none, none, none⟩],
        2, 3⟩ ⟨1, 0, 1800, 900⟩ 100 (.delivered 9)
      = ⟨⟨[⟨1, 1, 1, 0, none, none, "manual", none⟩],
          [⟨1, 1, 0, false, none, none, none⟩, ⟨2, 1, 50, false, none, none, none⟩],
          2, 3⟩, false, false, false⟩ :=
  ⟨(two_pending_confirmations_timeout_rule
      ⟨[⟨1, 1, 1, 0, none, none, "manual", none⟩],
        [⟨1, 1, 0, false, none, none, none⟩, ⟨2, 1, 50, false, none, none, none⟩],
        2, 3⟩ ⟨1, 0, 1800, 900⟩ 100 (.delivered 9)
      (s := ⟨1, 1, 1, 0, none, none, "manual", none⟩)
      (by decide) (by decide) (by decide)).1,
   (two_pending_confirmations_timeout_rule
      ⟨[⟨1, 1, 1, 0, none, none, "manual", none⟩],
        [⟨1, 1, 0, false, none, none, none⟩, ⟨2, 1, 50, false, none, none, none⟩],
        2, 3⟩ ⟨1, 0, 1800, 900⟩ 100 (.delivered 9)
      (s := ⟨1, 1, 1, 0, none, none, "manual", none⟩)
      (by decide) (by decide) (by decide)).2.2.2 (by decide)⟩

/-- C9: a store or gateway error raised while processing one session is
caught inside that session's processing (`_process_session`'s `except`
block), leaving the store as that session found it, and the tick goes on
to process every remaining candidate exactly as it would have; no
per-session error escapes the tick (the tick functions are total). -/
theorem per_session_errors_isolated (st : Store) (now : Int)
    (outcome : DeliveryOutcome) (xs ys : List Candidate) (c : Candidate)
    (e : String) (hfault : c.fault = some e) :
    process_session_caught st c now outcome = st ∧
    tick_process st now outcome (xs ++ c :: ys)
      = tick_process (tick_process st now outcome xs) now outcome ys := by
  have hstep : ∀ acc : Store,
      (if c.rowEndTime.isSome then acc
       else process_session_caught acc c now outcome) = acc := by
    intro acc
    by_cases hr : c.rowEndTime.isSome
    · rw [if_pos hr]
    · rw [if_neg hr]
      unfold process_session_caught
      rw [hfault]
  constructor
  · unfold process_session_caught
    rw [hfault]
  · unfold tick_process
    rw [List.foldl_append, List.foldl_cons, hstep]

/-- C9 witness: a tick over a faulty candidate followed by a healthy one —
the faulty session's processing is a no-op on the store and the healthy
session is still processed. -/
theorem per_session_errors_isolated_witness :
    process_session_caught ⟨[⟨1, 1, 1, 0, none, none, "manual", none⟩], [], 2, 1⟩
      ⟨⟨1, 0, 1800, 900⟩, none, some "connection lost"⟩ 1850 (.delivered 7)
      = ⟨[⟨1, 1, 1, 0, none, none, "manual", none⟩], [], 2, 1⟩ ∧
    tick_process ⟨[⟨1, 1, 1, 0, none, none, "manual", none⟩], [], 2, 1⟩ 1850
        (.delivered 7)
        ([] ++ ⟨⟨1, 0, 1800, 900⟩, none, some "connection lost"⟩ ::
          [⟨⟨1, 0, 1800, 900⟩, none, none⟩])
      = tick_process (tick_process ⟨[⟨1, 1, 1, 0, none, none, "manual", none⟩],
          [], 2, 1⟩ 1850 (.delivered 7) []) 1850 (.delivered 7)
          [⟨⟨1, 0, 1800, 900⟩, none, none⟩] :=
  per_session_errors_isolated ⟨[⟨1, 1, 1, 0, none, none, "manual", none⟩], [], 2, 1⟩
    1850 (.delivered 7) [] [⟨⟨1, 0, 1800, 900⟩, none, none⟩]
    ⟨⟨1, 0, 1800, 900⟩, none, some "connection lost"⟩ "connection lost" rfl

theorem get_session_sessions_congr {st st' : Store} (h : st'.sessions = st.sessions)
    (sid : Nat) : get_session st' sid = get_session st sid := by
  unfold get_session
  rw [h]

/-- C10: when a prompt is due, the confirmation row (`responded = false`,
`prompt_time = now`) is inserted into the store before any delivery
attempt, and a failed delivery (channel missing, user missing, or the
send raising) neither deletes nor marks it: the same row is appended for
every outcome, the failed call returns `None`, the undelivered
confirmation is the session's outstanding one, and once `later - now`
reaches `default_timeout` the timeout check auto-ends the session even
though the user never saw the prompt. -/
theorem undelivered_prompt_counts_toward_timeout (st : Store) (sid : Nat)
    (now later t : Int) (outcome : DeliveryOutcome) {s : Session}
    (hs : get_session st sid = some s) (hend : s.endTime = none)
    (hpend : get_pending_confirmations st sid = [])
    (hfail : outcome = .channelNotFound ∨ outcome = .userNotFound ∨
      outcome = .sendRaised)
    (htime : t ≤ later - now) :
    (send_confirmation_request st sid now outcome).2 = none ∧
    (send_confirmation_request st sid now outcome).1.confirmations
      = st.confirmations ++ [⟨st.nextConfirmationId, sid, now, false, none, none, none⟩] ∧
    get_pending_confirmations (send_confirmation_request st sid now outcome).1 sid
      = [⟨st.nextConfirmationId, sid, now, false, none, none, none⟩] ∧
    (check_timeout (send_confirmation_request st sid now outcome).1 sid
        (get_pending_confirmations (send_confirmation_request st sid now outcome).1 sid)
        t later).sessionEnded = true ∧
    (check_timeout (send_confirmation_request st sid now outcome).1 sid
        (get_pending_confirmations (send_confirmation_request st sid now outcome).1 sid)
        t later).uiInvoked = true ∧
    get_session (check_timeout (send_confirmation_request st sid now outcome).1 sid
        (get_pending_confirmations (send_confirmation_request st sid now outcome).1 sid)
        t later).store sid
      = some (endSessionRow later (some "自動終了: 応答なし") "auto" s) := by
  have hret : (send_confirmation_request st sid now outcome).2 = none := by
    rcases hfail with rfl | rfl | rfl <;> rfl
  have hconf := send_confirmation_request_confirmations st sid now outcome
  have hpend' : get_pending_confirmations (send_confirmation_request st sid now outcome).1 sid
      = [⟨st.nextConfirmationId, sid, now, false, none, none, none⟩] := by
    unfold get_pending_confirmations
    rw [hconf, List.filter_append]
    have h1 : st.confirmations.filter (fun c => c.sessionId == sid && !c.responded) = [] :=
      sortedBy_eq_nil_iff.mp hpend
    rw [h1]
    simp [sortedBy, insertSorted]
  have hs' : get_session (send_confirmation_request st sid now outcome).1 sid = some s := by
    rw [get_session_sessions_congr (send_confirmation_request_sessions st sid now outcome) sid]
    exact hs
  have htrig : ∃ c ∈ get_pending_confirmations
      (send_confirmation_request st sid now outcome).1 sid, t ≤ later - c.promptTime := by
    rw [hpend']
    exact ⟨_, List.mem_singleton.mpr rfl, htime⟩
  have hct := check_timeout_of_active_trigger hs' hend htrig
  have hcond : sessionEndCond sid s = true := by
    have hm := get_session_mem hs
    simp [sessionEndCond, hm.2, hend]
  refine ⟨hret, hconf, hpend', ?_, ?_, ?_⟩
  · rw [hct]
  · rw [hct]
  · rw [hct]
    have := get_session_end_session hs' later (some "自動終了: 応答なし") "auto"
    rw [hcond] at this
    simpa using this

/-- C10 witness: session 1 active, no confirmations; a prompt due at
time 100 fails to deliver (`channel not found`); the confirmation row is
still outstanding and at time 1000 (timeout 900) the session is
auto-ended without the user ever having been shown the prompt. -/
theorem undelivered_prompt_counts_toward_timeout_witness :
    (send_confirmation_request ⟨[⟨1, 1, 1, 0, none, none, "manual", none⟩], [], 2, 1⟩
      1 100 .channelNotFound).2 = none ∧
    get_pending_confirmations (send_confirmation_request
        ⟨[⟨1, 1, 1, 0, none, none, "manual", none⟩], [], 2, 1⟩ 1 100 .channelNotFound).1 1
      = [⟨1, 1, 100, false, none, none, none⟩] ∧
    (check_timeout (send_confirmation_request
        ⟨[⟨1, 1, 1, 0, none, none, "manual", none⟩], [], 2, 1⟩ 1 100 .channelNotFound).1 1
        (get_pending_confirmations (send_confirmation_request
          ⟨[⟨1, 1, 1, 0, none, none, "manual", none⟩], [], 2, 1⟩ 1 100 .channelNotFound).1 1)
        900 1000).sessionEnded = true :=
  ⟨(undelivered_prompt_counts_toward_timeout
      ⟨[⟨1, 1, 1, 0, none, none, "manual", none⟩], [], 2, 1⟩ 1 100 1000 900
      .channelNotFound (s := ⟨1, 1, 1, 0, none, none, "manual", none⟩)
      (by decide) (by decide) (by decide) (Or.inl rfl) (by decide)).1,
   (undelivered_prompt_counts_toward_timeout
      ⟨[⟨1, 1, 1, 0, none, none, "manual", none⟩], [], 2, 1⟩ 1 100 1000 900
      .channelNotFound (s := ⟨1, 1, 1, 0, none, none, "manual", none⟩)
      (by decide) (by decide) (by decide) (Or.inl rfl) (by decide)).2.2.1,
   (undelivered_prompt_counts_toward_timeout
      ⟨[⟨1, 1, 1, 0, none, none, "manual", none⟩], [], 2, 1⟩ 1 100 1000 900
      .channelNotFound (s := ⟨1, 1, 1, 0, none, none, "manual", none⟩)
      (by decide) (by decide) (by decide) (Or.inl rfl) (by decide)).2.2.2.1⟩

/-- C7: evaluated at the failing input — session 1 active, a prompt due at
time 100 whose message IS successfully delivered as message 555 — the
created confirmation row's `message_id` is still null (no code path
writes the delivered message's id back to the row), every confirmation in
the store has a null `message_id`, and the auto-end cleanup step
therefore finds nothing it can delete. -/
theorem confirmation_message_ref_never_recorded :
    ((send_confirmation_request ⟨[⟨1, 1, 1, 0, none, none, "manual", none⟩], [], 2, 1⟩
        1 100 (.delivered 555)).2.map Confirmation.messageId) = some none ∧
    (∀ c ∈ (send_confirmation_request ⟨[⟨1, 1, 1, 0, none, none, "manual", none⟩],
        [], 2, 1⟩ 1 100 (.delivered 555)).1.confirmations, c.messageId = none) ∧
    cleanup_deletable_message_ids (send_confirmation_request
        ⟨[⟨1, 1, 1, 0, none, none, "manual", none⟩], [], 2, 1⟩ 1 100
        (.delivered 555)).1 1 = [] := by decide

end ClockInBot
